import Mathlib

/-!
Verification development for the calories-ai repository.

The repository is a small web application: a Firebase cloud function
(`analyzeMealNutrition`) that asks a generative model for a nutritional
estimate of a meal, a client-side API wrapper that validates input and
checks the session before invoking the function, and a dashboard view that
lets the user edit the returned values (with a derived-calories rule) and
save them as a meal record.

The definitions below are a shallow embedding of that code.  JavaScript
numbers are modelled as rationals, JavaScript values that can appear in a
parsed JSON response as the inductive `JsValue`, fallible operations as
`Except`, and the observable effects that the claims talk about (was the
model invoked, was the RPC issued, was the auth state consulted) as
explicit fields of outcome structures.
-/

namespace CaloriesAI

/-- A JavaScript value as it can appear in the output of JSON.parse:
a number, a string, a boolean, null, an object or an array.
(JSON.parse never yields undefined; property access that misses is
modelled with Option at the use sites.) -/
inductive JsValue where
  | num (q : ℚ)
  | str (s : String)
  | bool (b : Bool)
  | null
  | obj (fields : List (String × JsValue))
  | arr (elems : List JsValue)

/-- Property access `v.k` on a non-null JavaScript value: a lookup on an
object, undefined (`none`) on every other non-null value.  Access on null
throws and is handled separately at the use site. -/
def prop (v : JsValue) (k : String) : Option JsValue :=
  match v with
  | .obj fields => (fields.find? (fun p => p.1 == k)).map (fun p => p.2)
  | _ => none

/-- Discriminator: is this JavaScript value an object. -/
def isObjValue : JsValue → Bool
  | .obj _ => true
  | _ => false

/-- Whitespace for the purpose of the JavaScript number coercion of
strings (the forms that occur in practice). -/
def isJsSpace (c : Char) : Bool :=
  c = ' ' || c = '\t' || c = '\n' || c = '\r'

/-- Trim leading and trailing whitespace from a character list. -/
def trimChars (l : List Char) : List Char :=
  ((l.dropWhile isJsSpace).reverse.dropWhile isJsSpace).reverse

/-- Numeric value of a list of decimal digits. -/
def natOfDigits (l : List Char) : ℕ :=
  l.foldl (fun acc c => acc * 10 + (c.toNat - 48)) 0

/-- Parse an unsigned decimal literal: digits, optionally followed by a
dot and further digits; a dot alone is not a number. -/
def parseUnsignedChars (l : List Char) : Option ℚ :=
  let intPart := l.takeWhile Char.isDigit
  let rest := l.dropWhile Char.isDigit
  match rest with
  | [] => if intPart.isEmpty then none else some (natOfDigits intPart : ℚ)
  | '.' :: frac =>
      if frac.all Char.isDigit && !(intPart.isEmpty && frac.isEmpty) then
        some ((natOfDigits intPart : ℚ) + (natOfDigits frac : ℚ) / (10 : ℚ) ^ frac.length)
      else none
  | _ => none

/-- Models the JavaScript builtin Number(string) on plain decimal
literals: trimmed empty string is 0, otherwise an optionally signed
decimal literal; anything else is NaN (`none`).  Exotic accepted forms
(hexadecimal, exponents, Infinity) are outside the model and never occur
in the inputs considered here. -/
def jsStringToNumber (s : String) : Option ℚ :=
  match trimChars s.data with
  | [] => some 0
  | '-' :: rest => (parseUnsignedChars rest).map (fun q => -q)
  | '+' :: rest => parseUnsignedChars rest
  | l => parseUnsignedChars l

/-- Models the JavaScript builtin Number(x) on a JSON value: `none` is
NaN.  Numbers are kept, strings are parsed, booleans are 1 or 0, null is
0, objects are NaN, an empty array is 0, a singleton array coerces via
its element (except booleans, which stringify to non-numeric text), and
longer arrays are NaN. -/
def toNumber : JsValue → Option ℚ
  | .num q => some q
  | .str s => jsStringToNumber s
  | .bool b => some (if b then 1 else 0)
  | .null => some 0
  | .obj _ => none
  | .arr [] => some 0
  | .arr [.bool _] => none
  | .arr [x] => toNumber x
  | .arr (_ :: _ :: _) => none

/-- Models the JavaScript expression `Number(x) || 0` applied to a
possibly-undefined value: undefined and NaN give 0 (and a zero result is
unchanged by the `|| 0`). -/
def numberOr0 (v : Option JsValue) : ℚ :=
  match v with
  | none => 0
  | some x => (toNumber x).getD 0

/-- JavaScript truthiness of a possibly-absent string: absent and empty
are falsy. -/
def strTruthy : Option String → Bool
  | none => false
  | some s => s ≠ ""

/-! ### Server-side handler (cloud function `analyzeMealNutrition`) -/

/-- The decoded identity token carried by an authenticated request. -/
structure DecodedIdToken where
  uid : String

/-- The auth context of a callable-function request (present exactly when
the caller is authenticated). -/
structure AuthContext where
  uid : String
  token : DecodedIdToken

/-- The authorization check of the cloud function: `!!token.uid`, i.e. the
uid string is truthy. -/
def isAuthorized (token : DecodedIdToken) : Bool :=
  token.uid ≠ ""

/-- An HttpsError thrown by the cloud function: a stable code and a
message. -/
structure HttpsError where
  code : String
  message : String

/-- The validated input of the analysis pipeline: an optional description
and an optional base64 image, both nullish in the schema. -/
structure MealAnalysisInput where
  description : Option String
  imageBase64 : Option String

/-- The zod safeParse of `MealAnalysisInputSchema`: the payload must be an
object; `description` and `imageBase64` must each be a string, null or
absent; and the refinement requires at least one of them to be truthy. -/
def safeParseMealInput (v : JsValue) : Option MealAnalysisInput :=
  match v with
  | .obj _ =>
    let parseField : String → Option (Option String) := fun k =>
      match prop v k with
      | none => some none
      | some .null => some none
      | some (.str s) => some (some s)
      | some _ => none
    match parseField "description", parseField "imageBase64" with
    | some d, some i =>
        if strTruthy d || strTruthy i then some ⟨d, i⟩ else none
    | _, _ => none
  | _ => none

/-- One block of a user message with mixed content: an image reference or
a piece of text. -/
inductive ContentPart where
  | imageUrl (url : String)
  | text (s : String)

/-- The content of a chat message: a plain string or a list of blocks. -/
inductive ChatContent where
  | text (s : String)
  | parts (l : List ContentPart)

/-- A chat message sent to the generative model. -/
structure ChatMessage where
  role : String
  content : ChatContent

/-- The fixed system instruction of the cloud function. -/
def systemInstruction : String :=
  "You are a nutritional analysis expert. Analyze the provided meal description and/or image and return the nutritional information in a structured JSON format with the following fields: calories (total calories), protein (grams), carbs (grams), and fat (grams). Provide your best estimate based on the visible food items."

/-- The fixed instruction accompanying an image attachment. -/
def imageInstruction : String :=
  "Please analyze the nutritional content of this meal image."

/-- The message list the cloud function builds: the system instruction,
then a text user turn when the description is truthy, then an
image-attachment user turn when the image is truthy. -/
def buildMessages (data : MealAnalysisInput) : List ChatMessage :=
  let base := [ChatMessage.mk "system" (.text systemInstruction)]
  let withText :=
    if strTruthy data.description then
      base ++ [ChatMessage.mk "user"
        (.text ("Please analyze this meal: " ++ data.description.getD ""))]
    else base
  if strTruthy data.imageBase64 then
    withText ++ [ChatMessage.mk "user" (.parts
      [ .imageUrl ("data:image/jpeg;base64," ++ data.imageBase64.getD ""),
        .text imageInstruction ])]
  else withText

/-- The four-field nutrition estimate returned by the handler. -/
structure NutritionAnalysis where
  calories : ℚ
  protein : ℚ
  carbs : ℚ
  fat : ℚ

/-- Everything observable about one invocation of the cloud function: its
result, whether the generative model was invoked, and the messages sent
to it (empty when it was not invoked). -/
structure ServerOutcome where
  result : Except HttpsError NutritionAnalysis
  modelCalled : Bool
  messagesSent : List ChatMessage

/-- The cloud function `analyzeMealNutrition`.  `unsafeData` is the raw
request payload, `auth` the auth context (absent for an unauthenticated
caller), `parse` the JSON.parse of the environment (`none` when parsing
throws), and `modelContent` the textual content of the first choice of
the model response (`none` when absent).

In order: reject unauthenticated callers, reject unauthorized callers,
reject payloads failing the schema; then build the prompt and invoke the
model.  Inside the try block, falsy content, a JSON.parse failure and a
property access on a parsed null all throw, and the catch block turns
every such throw into the internal-error HttpsError; otherwise the four
fields are coerced with `Number(x) || 0` semantics. -/
def analyzeMealNutritionServer (unsafeData : JsValue) (auth : Option AuthContext)
    (parse : String → Option JsValue) (modelContent : Option String) : ServerOutcome :=
  match auth with
  | none => ⟨.error ⟨"unauthenticated", "User must be authenticated to analyze meals"⟩,
             false, []⟩
  | some a =>
    if isAuthorized a.token then
      match safeParseMealInput unsafeData with
      | none => ⟨.error ⟨"invalid-argument", "Invalid data"⟩, false, []⟩
      | some data =>
        let messages := buildMessages data
        let tryResult : Except Unit NutritionAnalysis :=
          match modelContent with
          | none => .error ()
          | some content =>
            if content = "" then .error ()
            else match parse content with
              | none => .error ()
              | some .null => .error ()
              | some parsed =>
                .ok ⟨numberOr0 (prop parsed "calories"),
                     numberOr0 (prop parsed "protein"),
                     numberOr0 (prop parsed "carbs"),
                     numberOr0 (prop parsed "fat")⟩
        match tryResult with
        | .ok r => ⟨.ok r, true, messages⟩
        | .error _ =>
            ⟨.error ⟨"internal", "Failed to analyze meal nutrition. Please try again."⟩,
             true, messages⟩
    else ⟨.error ⟨"permission-denied", "User is not authorized"⟩, false, []⟩

/-! ### Client-side API wrapper (`API.analyzeMealNutrition`, `API.addMeal`) -/

/-- The error shape thrown by the client API wrapper. -/
structure ApiErrorType where
  code : String
  message : String

/-- Constructor for client API errors. -/
def createApiError (code message : String) : ApiErrorType :=
  ⟨code, message⟩

/-- A user record as projected from the identity provider. -/
structure UserRec where
  id : String
  email : String
  displayName : Option String

/-- Everything observable about one invocation of the client analyze
operation: its result, whether the auth state was consulted
(`requireUser` reached), and whether the RPC to the cloud function was
issued. -/
structure ClientOutcome where
  result : Except ApiErrorType NutritionAnalysis
  authConsulted : Bool
  rpcCalled : Bool

/-- The client `API.analyzeMealNutrition`.  `session` is the current auth
state (`none` when no user is signed in) and `rpc` the behaviour of the
callable function.  In order: throw invalid-input when both description
and image are falsy; `requireUser`, which rejects when no session exists;
then issue the RPC.  The catch block rethrows any error that carries a
truthy code unchanged and maps code-less errors to analysis-failed. -/
def clientAnalyzeMealNutrition (input : MealAnalysisInput) (session : Option UserRec)
    (rpc : MealAnalysisInput → Except ApiErrorType NutritionAnalysis) : ClientOutcome :=
  if !strTruthy input.description && !strTruthy input.imageBase64 then
    ⟨.error (createApiError "invalid-input"
        "Either meal description or image must be provided"), false, false⟩
  else
    match session with
    | none =>
        ⟨.error (createApiError "user-not-found" "No user is currently signed in"),
         true, false⟩
    | some _ =>
        match rpc input with
        | .ok r => ⟨.ok r, true, true⟩
        | .error e =>
            ⟨.error (if e.code ≠ "" then e
              else createApiError "analysis-failed"
                "Failed to analyze meal nutrition. Please try again."),
             true, true⟩

/-- A meal record before the store assigns its identity, as built by the
dashboard.  At runtime the nutrition fields come from the antd form and
can be absent, hence the Option type. -/
structure MealWithoutId where
  userId : String
  meal : String
  calories : Option ℚ
  protein : Option ℚ
  carbs : Option ℚ
  fat : Option ℚ
  dateAdded : String

/-! ### Dashboard view (`recalculateCalories`, `onSubmit`, `saveNutritionData`,
`convertFileToBase64`) -/

/-- The values held by the antd nutrition form: each field is a number or
absent (the user can clear an input). -/
structure NutritionFormValues where
  calories : Option ℚ
  protein : Option ℚ
  carbs : Option ℚ
  fat : Option ℚ

/-- The JavaScript expression `x || 0` on a number-or-undefined form
value. -/
def orZero (v : Option ℚ) : ℚ :=
  v.getD 0

/-- The JavaScript builtin Math.round: round to the nearest integer,
halves toward positive infinity. -/
def jsRound (q : ℚ) : ℤ :=
  ⌊q + 1 / 2⌋

/-- The dashboard `recalculateCalories`: read protein, carbs and fat from
the form (absent treated as 0), set calories to
`Math.round(protein * 4 + carbs * 4 + fat * 9)`, leave the other fields
unchanged. -/
def recalculateCalories (values : NutritionFormValues) : NutritionFormValues :=
  { values with
    calories := some ((jsRound
      (orZero values.protein * 4 + orZero values.carbs * 4 + orZero values.fat * 9) : ℤ) : ℚ) }

/-- The meal text used on save: the message form value, or the fixed
placeholder when it is falsy (absent or empty). -/
def mealTextOf (message : Option String) : String :=
  match message with
  | some s => if s = "" then "Image-based meal entry" else s
  | none => "Image-based meal entry"

/-- The dashboard state that the save operation touches. -/
structure DashboardState where
  message : Option String
  fileList : List String
  nutritionForm : NutritionFormValues
  nutritionData : Option NutritionAnalysis
  editingNutrition : Bool
  submitLoading : Bool

/-- Everything observable about one invocation of the save operation: the
new dashboard state, the single record handed to the store, and whether
the write succeeded. -/
structure SaveOutcome where
  state : DashboardState
  written : MealWithoutId
  success : Bool

/-- The dashboard `saveNutritionData`.  `storeWrite` is the behaviour of
`API.addMeal` (the store returns the assigned identity).  The record is
built from the current form values plus the message text (placeholder
when only an image was supplied); on success the message form is reset,
the file list emptied, the analysis result discarded and edit mode left;
on failure only the loading flag is restored.  The store is written
exactly once, with no retry. -/
def saveNutritionData (user : UserRec) (now : String) (st : DashboardState)
    (storeWrite : MealWithoutId → Except ApiErrorType String) : SaveOutcome :=
  let meal : MealWithoutId :=
    ⟨user.id, mealTextOf st.message, st.nutritionForm.calories, st.nutritionForm.protein,
     st.nutritionForm.carbs, st.nutritionForm.fat, now⟩
  match storeWrite meal with
  | .ok _ =>
      ⟨{ st with message := none, fileList := [], nutritionData := none,
                 editingNutrition := false, submitLoading := false }, meal, true⟩
  | .error _ => ⟨{ st with submitLoading := false }, meal, false⟩

/-- The dashboard `onSubmit` validation gate: given the message form value
and the upload file list, return the validation error (if any) and
whether the analyze path was entered.  The gate rejects when the message
is falsy or blank after trimming and no file is attached. -/
def onSubmitGate (message : Option String) (fileList : List String) :
    Option String × Bool :=
  if (match message with
      | none => true
      | some s => (trimChars s.data).isEmpty) && fileList.isEmpty then
    (some "Please provide either a meal description or upload an image", false)
  else (none, true)

/-- The standard base64 alphabet: the 26 capitals, the 26 lowercase
letters, the 10 digits, plus and slash. -/
def base64Alphabet : List Char :=
  (List.range 26).map (fun i => Char.ofNat (65 + i))
    ++ (List.range 26).map (fun i => Char.ofNat (97 + i))
    ++ (List.range 10).map (fun i => Char.ofNat (48 + i))
    ++ ['+', '/']

/-- The base64 digit for a 6-bit value. -/
def b64Char (n : ℕ) : Char :=
  base64Alphabet.getD (n % 64) 'A'

/-- Standard base64 encoding of a byte sequence (bytes are naturals,
taken mod 256), with `=` padding; this models the encoding produced by
the FileReader readAsDataURL builtin. -/
def base64Encode : List ℕ → List Char
  | [] => []
  | [a] =>
      let n := a % 256 * 65536
      [b64Char (n / 262144), b64Char (n / 4096 % 64), '=', '=']
  | [a, b] =>
      let n := a % 256 * 65536 + b % 256 * 256
      [b64Char (n / 262144), b64Char (n / 4096 % 64), b64Char (n / 64 % 64), '=']
  | a :: b :: c :: rest =>
      let n := a % 256 * 65536 + b % 256 * 256 + c % 256
      b64Char (n / 262144) :: b64Char (n / 4096 % 64) :: b64Char (n / 64 % 64) ::
        b64Char (n % 64) :: base64Encode rest

/-- The JavaScript `split(",")` on a character list: the list of
comma-free segments, in order. -/
def splitOnComma : List Char → List (List Char)
  | [] => [[]]
  | c :: rest =>
      let r := splitOnComma rest
      if c = ',' then [] :: r
      else (c :: r.headD []) :: r.tail

/-- A user-supplied file as the encoder sees it: a media type, the raw
bytes, and whether the read succeeds (the FileReader error event fires
exactly when it does not). -/
structure JsFile where
  mimeType : List Char
  bytes : List ℕ
  readable : Bool

/-- The failure of the image encoder (the spec calls this kind
EncodingError). -/
inductive FileReadFailure where
  | encodingFailed

/-- The data URL produced by readAsDataURL on a successful read:
`data:` + media type + `;base64,` + the base64 encoding of the bytes. -/
def dataUrlOf (f : JsFile) : List Char :=
  (['d','a','t','a',':'] ++ f.mimeType ++ [';','b','a','s','e','6','4'])
    ++ ',' :: base64Encode f.bytes

/-- The dashboard `convertFileToBase64`: read the file as a data URL,
split on commas and keep the second segment (stripping the data-URI
`data:...;base64,` head), or reject when the read fails. -/
def convertFileToBase64 (f : JsFile) : Except FileReadFailure (List Char) :=
  if f.readable then .ok ((splitOnComma (dataUrlOf f)).getD 1 [])
  else .error .encodingFailed

/-- A concrete valid request payload: a text description only. -/
def sampleRequest : JsValue :=
  .obj [("description", .str "grilled chicken salad")]

/-- A concrete authenticated, authorized caller. -/
def sampleAuth : AuthContext :=
  ⟨"user-1", ⟨"user-1"⟩⟩

/-- A model response whose calories value is negative. -/
def negParse : String → Option JsValue := fun _ =>
  some (.obj [("calories", .num (-100)), ("protein", .num 30),
              ("carbs", .num 10), ("fat", .num 15)])

/-- A model response that parses to a bare number, not an object. -/
def numParse : String → Option JsValue := fun _ => some (.num 5)

/-- A concrete failing store write. -/
def failStore : MealWithoutId → Except ApiErrorType String := fun _ =>
  .error ⟨"operation-failed", "write failed"⟩

/-- A concrete dashboard state holding an analysis result under edit. -/
def st0 : DashboardState :=
  ⟨some "toast", ["img.png"], ⟨some 100, some 1, some 2, some 3⟩,
   some ⟨100, 1, 2, 3⟩, true, false⟩

/-- A concrete signed-in user. -/
def user0 : UserRec := ⟨"u1", "u1@example.com", none⟩

/-! ### Helper lemmas -/

/-- A successful schema parse guarantees the refinement: at least one of
description and image is truthy. -/
lemma safeParse_modality (v : JsValue) (data : MealAnalysisInput)
    (h : safeParseMealInput v = some data) :
    (strTruthy data.description || strTruthy data.imageBase64) = true := by
  cases v with
  | obj fields =>
    simp only [safeParseMealInput] at h
    split at h
    · split at h
      · rename_i hcond
        rw [Option.some_inj] at h
        subst h
        exact hcond
      · exact absurd h (by simp)
    · exact absurd h (by simp)
  | num q => exact absurd h (by simp [safeParseMealInput])
  | str s => exact absurd h (by simp [safeParseMealInput])
  | bool b => exact absurd h (by simp [safeParseMealInput])
  | null => exact absurd h (by simp [safeParseMealInput])
  | arr l => exact absurd h (by simp [safeParseMealInput])

/-- Under an authenticated, authorized call with a valid payload, the
messages sent to the model are exactly the built prompt, whatever the
model then answers. -/
lemma server_messages (unsafeData : JsValue) (a : AuthContext)
    (ha : isAuthorized a.token = true) (data : MealAnalysisInput)
    (hparse : safeParseMealInput unsafeData = some data)
    (parse : String → Option JsValue) (content : Option String) :
    (analyzeMealNutritionServer unsafeData (some a) parse content).messagesSent
      = buildMessages data := by
  simp only [analyzeMealNutritionServer, ha, if_true, hparse]
  split <;> rfl

/-- Under an authenticated, authorized call with a valid payload, a
present, non-empty response that parses to a non-null value yields a
success whose fields are the coerced properties of the parsed value. -/
lemma server_ok_of_parsed (unsafeData : JsValue) (a : AuthContext)
    (ha : isAuthorized a.token = true) (data : MealAnalysisInput)
    (hparse : safeParseMealInput unsafeData = some data)
    (parse : String → Option JsValue) (s : String) (hs : s ≠ "")
    (v : JsValue) (hv : parse s = some v) (hnn : v ≠ .null) :
    (analyzeMealNutritionServer unsafeData (some a) parse (some s)).result
      = .ok ⟨numberOr0 (prop v "calories"), numberOr0 (prop v "protein"),
             numberOr0 (prop v "carbs"), numberOr0 (prop v "fat")⟩ := by
  simp only [analyzeMealNutritionServer, ha, if_true, hparse, hs, if_false, hv]

/-- Under an authenticated, authorized call with a valid payload, an
absent, empty, unparsable, or null-parsing response yields the internal
error. -/
lemma server_err_of_bad (unsafeData : JsValue) (a : AuthContext)
    (ha : isAuthorized a.token = true) (data : MealAnalysisInput)
    (hparse : safeParseMealInput unsafeData = some data)
    (parse : String → Option JsValue) (content : Option String)
    (hbad : content = none ∨ content = some ""
        ∨ (∃ s, content = some s ∧ parse s = none)
        ∨ (∃ s, content = some s ∧ parse s = some .null)) :
    (analyzeMealNutritionServer unsafeData (some a) parse content).result
      = .error ⟨"internal", "Failed to analyze meal nutrition. Please try again."⟩ := by
  rcases hbad with h | h | ⟨s, hc, hp⟩ | ⟨s, hc, hp⟩
  · subst h; simp [analyzeMealNutritionServer, ha, hparse]
  · subst h; simp [analyzeMealNutritionServer, ha, hparse]
  · subst hc
    by_cases hs : s = ""
    · subst hs; simp [analyzeMealNutritionServer, ha, hparse]
    · simp [analyzeMealNutritionServer, ha, hparse, hs, hp]
  · subst hc
    by_cases hs : s = ""
    · subst hs; simp [analyzeMealNutritionServer, ha, hparse]
    · simp [analyzeMealNutritionServer, ha, hparse, hs, hp]

/-- A base64 digit is never a comma. -/
lemma b64Char_ne_comma (n : ℕ) : b64Char n ≠ ',' := by
  have h64 : ∀ m : Fin 64, base64Alphabet.getD (m : ℕ) 'A' ≠ ',' := by decide
  have h : n % 64 < 64 := Nat.mod_lt _ (by norm_num)
  exact h64 ⟨n % 64, h⟩

/-- Base64 output never contains a comma. -/
lemma base64Encode_no_comma (l : List ℕ) : ',' ∉ base64Encode l := by
  have key : ∀ n : ℕ, ∀ l : List ℕ, l.length ≤ n → ',' ∉ base64Encode l := by
    intro n
    induction n with
    | zero =>
      intro l hl
      rw [List.length_eq_zero.mp (Nat.le_zero.mp hl)]
      simp [base64Encode]
    | succ n ih =>
      intro l hl
      match l with
      | [] => simp [base64Encode]
      | [a] =>
        intro hmem
        simp only [base64Encode, List.mem_cons, List.not_mem_nil, or_false] at hmem
        rcases hmem with h | h | h | h
        · exact b64Char_ne_comma _ h.symm
        · exact b64Char_ne_comma _ h.symm
        · exact absurd h (by decide)
        · exact absurd h (by decide)
      | [a, b] =>
        intro hmem
        simp only [base64Encode, List.mem_cons, List.not_mem_nil, or_false] at hmem
        rcases hmem with h | h | h | h
        · exact b64Char_ne_comma _ h.symm
        · exact b64Char_ne_comma _ h.symm
        · exact b64Char_ne_comma _ h.symm
        · exact absurd h (by decide)
      | a :: b :: c :: rest =>
        intro hmem
        simp only [base64Encode, List.mem_cons] at hmem
        have hrest : rest.length ≤ n := by
          simp only [List.length_cons] at hl
          omega
        rcases hmem with h | h | h | h | h
        · exact b64Char_ne_comma _ h.symm
        · exact b64Char_ne_comma _ h.symm
        · exact b64Char_ne_comma _ h.symm
        · exact b64Char_ne_comma _ h.symm
        · exact ih rest hrest h
  exact key l.length l le_rfl

/-- Splitting a comma-free list yields that list as the only segment. -/
lemma splitOnComma_no_comma (l : List Char) (h : ',' ∉ l) : splitOnComma l = [l] := by
  induction l with
  | nil => rfl
  | cons c rest ih =>
    have hc : c ≠ ',' := fun he => h (he ▸ List.mem_cons_self c rest)
    have hr : ',' ∉ rest := fun hm => h (List.mem_cons_of_mem _ hm)
    simp [splitOnComma, hc, ih hr]

/-- Splitting a list whose head part is comma-free around an explicit
comma puts the head part first. -/
lemma splitOnComma_append (a b : List Char) (ha : ',' ∉ a) :
    splitOnComma (a ++ ',' :: b) = a :: splitOnComma b := by
  induction a with
  | nil => simp [splitOnComma]
  | cons c a0 ih =>
    have hc : c ≠ ',' := fun he => ha (he ▸ List.mem_cons_self c a0)
    have ha0 : ',' ∉ a0 := fun hm => ha (List.mem_cons_of_mem _ hm)
    simp [splitOnComma, hc, ih ha0]

/-! ### Claims -/

/-- C1: for non-negative protein p, carbs c and fat f, the
calorie-recomputation triggered by editing a macronutrient sets the
calories field to round(4p + 4c + 9f) (a missing form field is treated
as 0), and re-applying the recomputation on its own output yields the
same calories (idempotence). -/
theorem recalculate_calories_law (p c f : ℚ) (_hp : 0 ≤ p) (_hc : 0 ≤ c) (_hf : 0 ≤ f)
    (v : NutritionFormValues)
    (hvp : orZero v.protein = p) (hvc : orZero v.carbs = c) (hvf : orZero v.fat = f) :
    (recalculateCalories v).calories = some ((jsRound (4 * p + 4 * c + 9 * f) : ℤ) : ℚ)
    ∧ recalculateCalories (recalculateCalories v) = recalculateCalories v
    ∧ orZero none = 0 := by
  have harg : orZero v.protein * 4 + orZero v.carbs * 4 + orZero v.fat * 9
      = 4 * p + 4 * c + 9 * f := by rw [hvp, hvc, hvf]; ring
  refine ⟨?_, ?_, rfl⟩
  · simp [recalculateCalories, harg]
  · cases v
    rfl

/-- Witness for C1 at protein 20, carbs 30, fat 10: calories become
round(80 + 120 + 90) = 290, idempotently. -/
theorem recalculate_calories_law_witness :
    (recalculateCalories ⟨some 0, some 20, some 30, some 10⟩).calories = some 290
    ∧ recalculateCalories (recalculateCalories ⟨some 0, some 20, some 30, some 10⟩)
        = recalculateCalories ⟨some 0, some 20, some 30, some 10⟩ := by
  have h := recalculate_calories_law 20 30 10 (by norm_num) (by norm_num) (by norm_num)
    ⟨some 0, some 20, some 30, some 10⟩ rfl rfl rfl
  refine ⟨?_, h.2.1⟩
  rw [h.1]
  norm_num [jsRound]

/-- C3: when both the description and the image are empty or absent, the
client analyze operation fails with the invalid-input error kind and
issues no RPC, and the dashboard submit gate surfaces a user-visible
message and does not enter the analyze path. -/
theorem empty_request_rejected (input : MealAnalysisInput) (session : Option UserRec)
    (rpc : MealAnalysisInput → Except ApiErrorType NutritionAnalysis)
    (message : Option String) (files : List String)
    (hd : input.description = none ∨ input.description = some "")
    (hi : input.imageBase64 = none ∨ input.imageBase64 = some "")
    (hm : message = none ∨ message = some "")
    (hf : files = []) :
    (clientAnalyzeMealNutrition input session rpc).result
      = .error (createApiError "invalid-input"
          "Either meal description or image must be provided")
    ∧ (clientAnalyzeMealNutrition input session rpc).rpcCalled = false
    ∧ (onSubmitGate message files).1
        = some "Please provide either a meal description or upload an image"
    ∧ (onSubmitGate message files).2 = false := by
  subst hf
  have hd' : strTruthy input.description = false := by
    rcases hd with h | h <;> simp [h, strTruthy]
  have hi' : strTruthy input.imageBase64 = false := by
    rcases hi with h | h <;> simp [h, strTruthy]
  have hgate : (onSubmitGate message []).1
        = some "Please provide either a meal description or upload an image"
      ∧ (onSubmitGate message []).2 = false := by
    rcases hm with h | h <;> subst h <;> exact ⟨rfl, rfl⟩
  exact ⟨by simp [clientAnalyzeMealNutrition, hd', hi'],
         by simp [clientAnalyzeMealNutrition, hd', hi'], hgate.1, hgate.2⟩

/-- Witness for C3: an absent description with an empty image string and
a blank form yield the invalid-input failure with no RPC and a gate
message. -/
theorem empty_request_rejected_witness :
    (clientAnalyzeMealNutrition ⟨none, some ""⟩ (some ⟨"u1", "e", none⟩)
        (fun _ => .ok ⟨1, 2, 3, 4⟩)).result
      = .error (createApiError "invalid-input"
          "Either meal description or image must be provided")
    ∧ (clientAnalyzeMealNutrition ⟨none, some ""⟩ (some ⟨"u1", "e", none⟩)
        (fun _ => .ok ⟨1, 2, 3, 4⟩)).rpcCalled = false
    ∧ (onSubmitGate (some "") []).2 = false := by
  have h := empty_request_rejected ⟨none, some ""⟩ (some ⟨"u1", "e", none⟩)
    (fun _ => .ok ⟨1, 2, 3, 4⟩) (some "") [] (Or.inl rfl) (Or.inr rfl) (Or.inr rfl) rfl
  exact ⟨h.1, h.2.1, h.2.2.2⟩

/-- C9: in the client analyze operation the emptiness check precedes the
session check: an empty request fails with invalid-input for every
session state (including a signed-out caller), without consulting the
auth state and without issuing any RPC. -/
theorem emptiness_check_precedes_auth (input : MealAnalysisInput)
    (session : Option UserRec)
    (rpc : MealAnalysisInput → Except ApiErrorType NutritionAnalysis)
    (hd : input.description = none ∨ input.description = some "")
    (hi : input.imageBase64 = none ∨ input.imageBase64 = some "") :
    (clientAnalyzeMealNutrition input session rpc).result
      = .error (createApiError "invalid-input"
          "Either meal description or image must be provided")
    ∧ (clientAnalyzeMealNutrition input session rpc).authConsulted = false
    ∧ (clientAnalyzeMealNutrition input session rpc).rpcCalled = false := by
  have hd' : strTruthy input.description = false := by
    rcases hd with h | h <;> simp [h, strTruthy]
  have hi' : strTruthy input.imageBase64 = false := by
    rcases hi with h | h <;> simp [h, strTruthy]
  exact ⟨by simp [clientAnalyzeMealNutrition, hd', hi'],
         by simp [clientAnalyzeMealNutrition, hd', hi'],
         by simp [clientAnalyzeMealNutrition, hd', hi']⟩

/-- Witness for C9: an empty request from a signed-out caller fails with
invalid-input, the auth state untouched. -/
theorem emptiness_check_precedes_auth_witness :
    (clientAnalyzeMealNutrition ⟨none, none⟩ none (fun _ => .ok ⟨0, 0, 0, 0⟩)).result
      = .error (createApiError "invalid-input"
          "Either meal description or image must be provided")
    ∧ (clientAnalyzeMealNutrition ⟨none, none⟩ none
        (fun _ => .ok ⟨0, 0, 0, 0⟩)).authConsulted = false := by
  have h := emptiness_check_precedes_auth ⟨none, none⟩ none (fun _ => .ok ⟨0, 0, 0, 0⟩)
    (Or.inl rfl) (Or.inl rfl)
  exact ⟨h.1, h.2.1⟩

/-- C4 counterexample: an empty request from a caller with no session is
rejected by the client with the invalid-input kind, not with the
no-active-session (Unauthenticated) kind, so not every unauthenticated
invocation is rejected with the Unauthenticated error kind. -/
theorem unauthenticated_kind_counterexample :
    (clientAnalyzeMealNutrition ⟨none, none⟩ none (fun _ => .ok ⟨0, 0, 0, 0⟩)).result
      = .error ⟨"invalid-input", "Either meal description or image must be provided"⟩
    ∧ "invalid-input" ≠ "user-not-found"
    ∧ "invalid-input" ≠ "unauthenticated" :=
  ⟨rfl, by decide, by decide⟩

/-- C4 (amended): unauthenticated invocations never reach the generative
model.  The server handler rejects a call with no auth context with the
unauthenticated kind before invoking the model; the client with no
session never issues the RPC, rejecting with the no-active-session kind
whenever the request is non-empty (an empty request is rejected with
invalid-input first). -/
theorem unauthenticated_never_reaches_model (unsafeData : JsValue)
    (parse : String → Option JsValue) (content : Option String)
    (input : MealAnalysisInput)
    (rpc : MealAnalysisInput → Except ApiErrorType NutritionAnalysis) :
    (analyzeMealNutritionServer unsafeData none parse content).result
      = .error ⟨"unauthenticated", "User must be authenticated to analyze meals"⟩
    ∧ (analyzeMealNutritionServer unsafeData none parse content).modelCalled = false
    ∧ (clientAnalyzeMealNutrition input none rpc).rpcCalled = false
    ∧ ((strTruthy input.description || strTruthy input.imageBase64) = true →
        (clientAnalyzeMealNutrition input none rpc).result
          = .error (createApiError "user-not-found" "No user is currently signed in")) := by
  refine ⟨rfl, rfl, ?_, ?_⟩
  · unfold clientAnalyzeMealNutrition
    split
    · rfl
    · rfl
  · intro ht
    have hcond : (!strTruthy input.description && !strTruthy input.imageBase64) = false := by
      rcases (Bool.or_eq_true _ _).mp ht with h | h <;> simp [h]
    simp [clientAnalyzeMealNutrition, hcond]

/-- Witness for C4 (amended): a no-auth server call leaves the model
uninvoked, and a signed-out client call with a non-empty description
fails with the no-active-session kind. -/
theorem unauthenticated_never_reaches_model_witness :
    (analyzeMealNutritionServer (.obj []) none (fun _ => none) none).modelCalled = false
    ∧ (clientAnalyzeMealNutrition ⟨some "salad", none⟩ none
        (fun _ => .ok ⟨0, 0, 0, 0⟩)).result
      = .error (createApiError "user-not-found" "No user is currently signed in") := by
  have h := unauthenticated_never_reaches_model (.obj []) (fun _ => none) none
    ⟨some "salad", none⟩ (fun _ => .ok ⟨0, 0, 0, 0⟩)
  exact ⟨h.2.1, h.2.2.2 (by decide)⟩

/-- C2 counterexample: a model response that parses as a JSON object with
a negative calories value is returned with that negative value intact, so
the returned result does not always have all four fields non-negative. -/
theorem nonnegative_fields_counterexample :
    (analyzeMealNutritionServer sampleRequest (some sampleAuth) negParse
        (some "resp")).result
      = .ok ⟨-100, 30, 10, 15⟩
    ∧ ¬ (0 ≤ (-100 : ℚ)) := by
  refine ⟨rfl, by norm_num⟩

/-- C2 (amended): for every valid request and every model response that
parses as a JSON object, the returned result has each of the four fields
equal to the `Number(x) || 0` coercion of the corresponding response
property, so an omitted field defaults to 0; model-supplied values are
passed through unchanged, so the fields are non-negative only when the
coerced model values are. -/
theorem analyze_result_fields (a : AuthContext) (ha : isAuthorized a.token = true)
    (unsafeData : JsValue) (data : MealAnalysisInput)
    (hparse : safeParseMealInput unsafeData = some data)
    (parse : String → Option JsValue) (s : String) (hs : s ≠ "")
    (fields : List (String × JsValue)) (hv : parse s = some (.obj fields)) :
    (analyzeMealNutritionServer unsafeData (some a) parse (some s)).result
      = .ok ⟨numberOr0 (prop (.obj fields) "calories"),
             numberOr0 (prop (.obj fields) "protein"),
             numberOr0 (prop (.obj fields) "carbs"),
             numberOr0 (prop (.obj fields) "fat")⟩
    ∧ (prop (.obj fields) "calories" = none → numberOr0 (prop (.obj fields) "calories") = 0)
    ∧ (prop (.obj fields) "protein" = none → numberOr0 (prop (.obj fields) "protein") = 0)
    ∧ (prop (.obj fields) "carbs" = none → numberOr0 (prop (.obj fields) "carbs") = 0)
    ∧ (prop (.obj fields) "fat" = none → numberOr0 (prop (.obj fields) "fat") = 0) := by
  refine ⟨server_ok_of_parsed _ _ ha _ hparse _ _ hs _ hv
      (fun hx => JsValue.noConfusion hx), ?_, ?_, ?_, ?_⟩ <;>
    (intro h; rw [h]; rfl)

/-- Witness for C2 (amended): a response object carrying only calories
yields that value with the other three fields defaulted to 0. -/
theorem analyze_result_fields_witness :
    (analyzeMealNutritionServer sampleRequest (some sampleAuth)
        (fun _ => some (.obj [("calories", .num 350)])) (some "resp")).result
      = .ok ⟨350, 0, 0, 0⟩ := by
  have h := analyze_result_fields sampleAuth (by decide) sampleRequest
    ⟨some "grilled chicken salad", none⟩ rfl
    (fun _ => some (.obj [("calories", .num 350)])) "resp" (by decide)
    [("calories", .num 350)] rfl
  rw [h.1]
  rfl

/-- C5 counterexample: a model response that is present and parses, but
not as a structured object (it parses to the bare number 5), is accepted
by the handler with all fields defaulted to 0 instead of failing, so the
handler does not fail exactly on responses unparsable as a structured
object. -/
theorem analysis_failure_exactness_counterexample :
    numParse "5" = some (.num 5)
    ∧ isObjValue (.num 5) = false
    ∧ (analyzeMealNutritionServer sampleRequest (some sampleAuth) numParse
        (some "5")).result = .ok ⟨0, 0, 0, 0⟩ :=
  ⟨rfl, rfl, rfl⟩

/-- C5 (amended): the handler fails with the internal (AnalysisFailed)
kind exactly when the model content is absent, empty, unparsable by
JSON.parse, or parses to null (so that property access throws); every
response parsing to a non-null value — object or not — is accepted with
the four fields coerced, defaulting to 0. -/
theorem analysis_failure_condition (a : AuthContext) (ha : isAuthorized a.token = true)
    (unsafeData : JsValue) (data : MealAnalysisInput)
    (hparse : safeParseMealInput unsafeData = some data)
    (parse : String → Option JsValue) (content : Option String) :
    ((∃ e, (analyzeMealNutritionServer unsafeData (some a) parse content).result
          = .error e ∧ e.code = "internal")
      ↔ (content = none ∨ content = some ""
          ∨ (∃ s, content = some s ∧ parse s = none)
          ∨ (∃ s, content = some s ∧ parse s = some .null)))
    ∧ (∀ s v, content = some s → s ≠ "" → parse s = some v → v ≠ .null →
        (analyzeMealNutritionServer unsafeData (some a) parse content).result
          = .ok ⟨numberOr0 (prop v "calories"), numberOr0 (prop v "protein"),
                 numberOr0 (prop v "carbs"), numberOr0 (prop v "fat")⟩) := by
  constructor
  · constructor
    · rintro ⟨e, he, hcode⟩
      cases content with
      | none => exact Or.inl rfl
      | some s =>
        by_cases hs : s = ""
        · exact Or.inr (Or.inl (by rw [hs]))
        · cases hv : parse s with
          | none => exact Or.inr (Or.inr (Or.inl ⟨s, rfl, hv⟩))
          | some v =>
            cases v with
            | null => exact Or.inr (Or.inr (Or.inr ⟨s, rfl, hv⟩))
            | num q => exact absurd he (by
                rw [server_ok_of_parsed _ _ ha _ hparse _ _ hs _ hv
                  (fun hx => JsValue.noConfusion hx)]; simp)
            | str t => exact absurd he (by
                rw [server_ok_of_parsed _ _ ha _ hparse _ _ hs _ hv
                  (fun hx => JsValue.noConfusion hx)]; simp)
            | bool b => exact absurd he (by
                rw [server_ok_of_parsed _ _ ha _ hparse _ _ hs _ hv
                  (fun hx => JsValue.noConfusion hx)]; simp)
            | obj fl => exact absurd he (by
                rw [server_ok_of_parsed _ _ ha _ hparse _ _ hs _ hv
                  (fun hx => JsValue.noConfusion hx)]; simp)
            | arr el => exact absurd he (by
                rw [server_ok_of_parsed _ _ ha _ hparse _ _ hs _ hv
                  (fun hx => JsValue.noConfusion hx)]; simp)
    · intro hbad
      exact ⟨_, server_err_of_bad _ _ ha _ hparse _ _ hbad, rfl⟩
  · intro s v hc hs hv hnn
    subst hc
    exact server_ok_of_parsed _ _ ha _ hparse _ _ hs _ hv hnn

/-- Witness for C5 (amended): a response parsing to the bare value true
is accepted with all four fields defaulted. -/
theorem analysis_failure_condition_witness :
    (analyzeMealNutritionServer sampleRequest (some sampleAuth)
        (fun _ => some (.bool true)) (some "true")).result = .ok ⟨0, 0, 0, 0⟩ := by
  have h := (analysis_failure_condition sampleAuth (by decide) sampleRequest
    ⟨some "grilled chicken salad", none⟩ rfl (fun _ => some (.bool true))
    (some "true")).2 "true" (.bool true) rfl (by decide) rfl
    (fun hx => JsValue.noConfusion hx)
  rw [h]
  rfl

/-- C10: the handler applies `Number(x) || 0` semantics to each nutrition
field of a parsed object response: each returned field equals that
coercion of the corresponding property; a value coercing to a number is
kept (so a zero stays 0), a missing or NaN-coercing value yields 0, and
the numeric string "350" coerces to 350. -/
theorem field_coercion_semantics (a : AuthContext) (ha : isAuthorized a.token = true)
    (unsafeData : JsValue) (data : MealAnalysisInput)
    (hparse : safeParseMealInput unsafeData = some data)
    (parse : String → Option JsValue) (s : String) (hs : s ≠ "")
    (fields : List (String × JsValue)) (hv : parse s = some (.obj fields)) :
    (analyzeMealNutritionServer unsafeData (some a) parse (some s)).result
      = .ok ⟨numberOr0 (prop (.obj fields) "calories"),
             numberOr0 (prop (.obj fields) "protein"),
             numberOr0 (prop (.obj fields) "carbs"),
             numberOr0 (prop (.obj fields) "fat")⟩
    ∧ (∀ w : JsValue, ∀ q : ℚ, toNumber w = some q → numberOr0 (some w) = q)
    ∧ numberOr0 none = 0
    ∧ (∀ w : JsValue, toNumber w = none → numberOr0 (some w) = 0)
    ∧ toNumber (.str "350") = some 350 := by
  refine ⟨server_ok_of_parsed _ _ ha _ hparse _ _ hs _ hv
      (fun hx => JsValue.noConfusion hx), ?_, rfl, ?_, by decide⟩
  · intro w q hw; simp [numberOr0, hw]
  · intro w hw; simp [numberOr0, hw]

/-- Witness for C10: a response object with calories the string "350" and
protein the number 30 yields 350 and 30, the other fields 0. -/
theorem field_coercion_semantics_witness :
    (analyzeMealNutritionServer sampleRequest (some sampleAuth)
        (fun _ => some (.obj [("calories", .str "350"), ("protein", .num 30)]))
        (some "resp")).result
      = .ok ⟨350, 30, 0, 0⟩ := by
  have h := field_coercion_semantics sampleAuth (by decide) sampleRequest
    ⟨some "grilled chicken salad", none⟩ rfl
    (fun _ => some (.obj [("calories", .str "350"), ("protein", .num 30)]))
    "resp" (by decide) [("calories", .str "350"), ("protein", .num 30)] rfl
  rw [h.1]
  simp only [Except.ok.injEq, NutritionAnalysis.mk.injEq]
  refine ⟨?_, ?_, ?_, ?_⟩ <;> decide

/-- C6: for every valid request, the prompt sent to the model is the
fixed system instruction followed by exactly one message per provided
modality: a user text turn echoing the description exactly when the
description is non-empty, and an image-attachment turn (one image block
plus the fixed instruction text block) when an image is present; a
description-only request sends exactly one text-only user turn. -/
theorem prompt_shape (a : AuthContext) (ha : isAuthorized a.token = true)
    (unsafeData : JsValue) (data : MealAnalysisInput)
    (hparse : safeParseMealInput unsafeData = some data)
    (parse : String → Option JsValue) (content : Option String) :
    (analyzeMealNutritionServer unsafeData (some a) parse content).messagesSent
      = [⟨"system", .text systemInstruction⟩]
        ++ (if strTruthy data.description then
              [⟨"user", .text ("Please analyze this meal: " ++ data.description.getD "")⟩]
            else [])
        ++ (if strTruthy data.imageBase64 then
              [⟨"user", .parts
                  [ .imageUrl ("data:image/jpeg;base64," ++ data.imageBase64.getD ""),
                    .text imageInstruction ]⟩]
            else [])
    ∧ (analyzeMealNutritionServer unsafeData (some a) parse content).messagesSent.length
        = 1 + (if strTruthy data.description then 1 else 0)
            + (if strTruthy data.imageBase64 then 1 else 0)
    ∧ (data.imageBase64 = none →
        (analyzeMealNutritionServer unsafeData (some a) parse content).messagesSent
          = [⟨"system", .text systemInstruction⟩,
             ⟨"user", .text ("Please analyze this meal: " ++ data.description.getD "")⟩]) := by
  have hm := server_messages unsafeData a ha data hparse parse content
  refine ⟨?_, ?_, ?_⟩
  · rw [hm]
    unfold buildMessages
    by_cases h1 : strTruthy data.description = true <;>
      by_cases h2 : strTruthy data.imageBase64 = true <;>
      simp [h1, h2]
  · rw [hm]
    unfold buildMessages
    by_cases h1 : strTruthy data.description = true <;>
      by_cases h2 : strTruthy data.imageBase64 = true <;>
      simp [h1, h2]
  · intro hi
    have ht : strTruthy data.description = true := by
      have hmod := safeParse_modality unsafeData data hparse
      rw [hi] at hmod
      simpa [strTruthy] using hmod
    rw [hm]
    unfold buildMessages
    simp [ht, hi]
    rfl

/-- Witness for C6: the description-only sample request sends exactly the
system turn and one text user turn. -/
theorem prompt_shape_witness :
    (analyzeMealNutritionServer sampleRequest (some sampleAuth)
        (fun _ => none) none).messagesSent
      = [⟨"system", .text systemInstruction⟩,
         ⟨"user", .text "Please analyze this meal: grilled chicken salad"⟩] := by
  have h := (prompt_shape sampleAuth (by decide) sampleRequest
    ⟨some "grilled chicken salad", none⟩ rfl (fun _ => none) none).2.2 rfl
  rw [h]
  rfl

/-- C7: the save operation hands the store a record built from the
current nutrition form values plus the message text (the fixed
placeholder when the message is absent or empty); the record carries no
identity (the store assigns it).  On a successful write the message
form, file list, analysis result and edit mode are cleared; on a failed
write the state is left intact (identical when the loading flag was
clear), the failure is reported and the single write is not retried. -/
theorem save_meal_atomicity (user : UserRec) (now : String) (st : DashboardState)
    (storeWrite : MealWithoutId → Except ApiErrorType String) :
    (saveNutritionData user now st storeWrite).written
      = ⟨user.id, mealTextOf st.message, st.nutritionForm.calories,
         st.nutritionForm.protein, st.nutritionForm.carbs, st.nutritionForm.fat, now⟩
    ∧ ((st.message = none ∨ st.message = some "") →
        (saveNutritionData user now st storeWrite).written.meal = "Image-based meal entry")
    ∧ (∀ i, storeWrite (saveNutritionData user now st storeWrite).written = .ok i →
        (saveNutritionData user now st storeWrite).state.message = none
        ∧ (saveNutritionData user now st storeWrite).state.fileList = []
        ∧ (saveNutritionData user now st storeWrite).state.nutritionData = none
        ∧ (saveNutritionData user now st storeWrite).state.editingNutrition = false
        ∧ (saveNutritionData user now st storeWrite).success = true)
    ∧ (∀ e, storeWrite (saveNutritionData user now st storeWrite).written = .error e →
        (saveNutritionData user now st storeWrite).state
            = { st with submitLoading := false }
        ∧ (saveNutritionData user now st storeWrite).success = false)
    ∧ (st.submitLoading = false →
        ∀ e, storeWrite (saveNutritionData user now st storeWrite).written = .error e →
          (saveNutritionData user now st storeWrite).state = st) := by
  have hwr : (saveNutritionData user now st storeWrite).written
      = ⟨user.id, mealTextOf st.message, st.nutritionForm.calories,
         st.nutritionForm.protein, st.nutritionForm.carbs, st.nutritionForm.fat, now⟩ := by
    simp only [saveNutritionData]
    split <;> rfl
  refine ⟨hwr, ?_, ?_, ?_, ?_⟩
  · intro hmsg
    rw [hwr]
    rcases hmsg with h | h <;> simp [mealTextOf, h]
  · intro i hok
    rw [hwr] at hok
    simp [saveNutritionData, hok]
  · intro e herr
    rw [hwr] at herr
    simp [saveNutritionData, herr]
  · intro hsl e herr
    rw [hwr] at herr
    simp only [saveNutritionData, herr]
    cases st
    simp_all

/-- Witness for C7: with the loading flag clear, a failed write leaves
the concrete dashboard state unchanged and reports no success. -/
theorem save_meal_atomicity_witness :
    (saveNutritionData user0 "2026-10-11" st0 failStore).state = st0
    ∧ (saveNutritionData user0 "2026-10-11" st0 failStore).success = false := by
  have h := save_meal_atomicity user0 "2026-10-11" st0 failStore
  exact ⟨h.2.2.2.2 rfl ⟨"operation-failed", "write failed"⟩ rfl,
         (h.2.2.2.1 ⟨"operation-failed", "write failed"⟩ rfl).2⟩

/-- C8: for every image file whose media type contains no comma, the
encoder returns exactly the base64 text of the bytes of the file with the
data-URI head stripped when the read succeeds, and fails with the
encoding-error kind exactly when the read fails. -/
theorem image_encoder_contract (f : JsFile) (hm : ',' ∉ f.mimeType) :
    (f.readable = true → convertFileToBase64 f = .ok (base64Encode f.bytes))
    ∧ (f.readable = false → convertFileToBase64 f = .error .encodingFailed) := by
  constructor
  · intro hr
    have hpre : ',' ∉ (['d','a','t','a',':'] ++ f.mimeType ++ [';','b','a','s','e','6','4']) := by
      intro hmem
      rcases List.mem_append.mp hmem with h1 | h2
      · rcases List.mem_append.mp h1 with h3 | h4
        · exact absurd h3 (by decide)
        · exact hm h4
      · exact absurd h2 (by decide)
    unfold convertFileToBase64 dataUrlOf
    rw [if_pos hr]
    rw [splitOnComma_append _ _ hpre,
        splitOnComma_no_comma _ (base64Encode_no_comma f.bytes)]
    rfl
  · intro hr
    simp [convertFileToBase64, hr]

/-- Witness for C8: the bytes 77, 97, 110 of a readable jpeg file encode
to the base64 text TWFu with the data-URI head stripped. -/
theorem image_encoder_contract_witness :
    convertFileToBase64
        ⟨['i','m','a','g','e','/','j','p','e','g'], [77, 97, 110], true⟩
      = .ok ['T','W','F','u'] := by
  have h := (image_encoder_contract
    ⟨['i','m','a','g','e','/','j','p','e','g'], [77, 97, 110], true⟩ (by decide)).1 rfl
  rw [h]
  rfl

end CaloriesAI
